import Mathlib

/-!
# plasma-cli: the command dispatcher `parser.ParseArgs`

A shallow embedding of `src/parser/parser.go`.

`ParseArgs` reads the command selected by `kingpin.Parse()` and the flag
variables that call filled in, and then performs a fixed sequence of calls to
collaborators (packages `plasma`, `util`, `logrus`, `os`).  None of those
collaborators is part of the file, so the dispatcher is embedded as a tree of
requests (`Prog`): every node is one call of the source, and the continuation
receives the value the call returned.  An arbitrary, stateful environment
(`Env`) answers the requests; `run` interprets the tree against it and records
every call together with its answer in a trace.

Conventions.
* Go `string` is `String`; `len(s)` is the number of bytes, `String.utf8ByteSize`.
* Go `uint64`, `uint` are `Nat`, Go `int` is `Int`; the conversions `uint(x)`
  and `int(x)` are the functions `uint` and `int` below, with the explicit
  wrap-around modulo `2 ^ UintSize`.
* A collaborator call is taken to return a value of its result type.
* `Flags` is the state in which `kingpin.Parse()` returns.  When a `Required()` flag is
  missing, `kingpin.Parse()` ends the process before the `switch`; in particular the
  list flag `--fromutxo` of `merge` holds at least one position whenever the `merge`
  case runs, which theorems about counts take as the hypothesis that the list is
  not empty.
-/

namespace parser

/-! ## Machine integers -/

/-- Width in bits of Go's `int` and `uint` on the 64-bit targets the tool is built for. -/
def UintSize : Nat := 64

/-- Go conversion `uint(x)` of an integer value: reduction modulo `2 ^ UintSize`. -/
def uint (x : Int) : Nat := (x % (2 : Int) ^ UintSize).toNat

/-- Go conversion `int(x)` of an unsigned value: the low `UintSize` bits read in
two's complement. -/
def int (n : Nat) : Int :=
  if n % 2 ^ UintSize < 2 ^ (UintSize - 1) then ((n % 2 ^ UintSize : Nat) : Int)
  else ((n % 2 ^ UintSize : Nat) : Int) - (2 : Int) ^ UintSize

/-! ## Data of the collaborating packages

The struct declarations live in package `plasma`; the fields and their types
are those that the composite literals and selectors of `parser.go` use. -/

/-- The type `common.Address` of go-ethereum: a 20 byte account address. -/
structure Address where
  bytes : List Nat
deriving DecidableEq, Repr

/-- Modelled from the spec: the declaration of `plasma.SingleUTXO` is missing from
the sources; the spec gives a UTXO the attributes block number, transaction index,
output index, amount and currency, and `parser.go` reads exactly the fields below
(the numeric ones through `uint(...)`, the currency through `common.HexToAddress`).
The numeric fields are integers of a type that the source converts to `uint`. -/
structure SingleUTXO where
  Blknum : Int
  Txindex : Int
  Oindex : Int
  Currency : String
  Amount : Int
deriving DecidableEq, Repr

/-- The struct `plasma.PlasmaTransaction`, with the fields the dispatcher sets. -/
structure PlasmaTransaction where
  Blknum : Nat
  Txindex : Nat
  Oindex : Nat
  Cur12 : Address
  Toowner : Address
  Fromowner : Address
  Privatekey : String
  Toamount : Nat
  Fromamount : Nat
  Outputs : Int
deriving DecidableEq, Repr

/-- The struct `plasma.MergeTransaction`. -/
structure MergeTransaction where
  Utxos : List SingleUTXO
  Fromowner : Address
  Privatekey : String
deriving DecidableEq, Repr

/-- The struct `plasma.PlasmaDeposit`. -/
structure PlasmaDeposit where
  PrivateKey : String
  Client : String
  Contract : String
  Amount : Nat
  Owner : String
  Currency : String
deriving DecidableEq, Repr

/-- The struct `plasma.StandardExit`. -/
structure StandardExit where
  UtxoPosition : Int
  Contract : String
  PrivateKey : String
  Client : String
deriving DecidableEq, Repr

/-- The struct `plasma.ProcessExit`. -/
structure ProcessExit where
  Contract : String
  PrivateKey : String
  Token : String
  Client : String
deriving DecidableEq, Repr

/-- Modelled from the spec: the payload `exitData.Data` returned by
`plasma.GetUTXOExitData`, whose declaration is missing from the sources; the spec
describes it as the pair of a UTXO position and a proof. -/
structure ExitDataBody where
  UtxoPos : Int
  Proof : String
deriving DecidableEq, Repr

/-- Modelled from the spec: the value returned by `plasma.GetUTXOExitData`, read by
the dispatcher as `exitData.Data.UtxoPos` and `exitData.Data.Proof`. -/
structure ExitData where
  Data : ExitDataBody
deriving DecidableEq, Repr

/-! ## Command line -/

/-- The leaf commands declared with `kingpin.Command`; `kingpin.Parse()` returns the
full name of the selected one, and the `switch` of `ParseArgs` compares it with each
`FullCommand()`. -/
inductive Command where
  /-- Command `get utxos`. -/
  | getUTXO
  /-- Command `get balance`. -/
  | getBalance
  /-- Command `get status`. -/
  | status
  /-- Command `get exit`. -/
  | getExit
  /-- Command `deposit`. -/
  | deposit
  /-- Command `send`. -/
  | send
  /-- Command `split`. -/
  | split
  /-- Command `merge`. -/
  | merge
  /-- Command `exit`. -/
  | exit
  /-- Command `process`. -/
  | process
  /-- Command `create account`. -/
  | createAccount
deriving DecidableEq, Repr

/-- The package-level flag variables of `parser.go`, as `kingpin.Parse()` leaves
them.  `String()` flags are strings, `Uint()` and `Uint64()` flags are naturals,
the `Int()` flag is an integer, the `Uint64List()` flag is a list of naturals. -/
structure Flags where
  watcherURL : String
  ownerUTXOAddress : String
  getExitUTXOPosition : Int
  privateKey : String
  client : String
  contract : String
  depositOwner : String
  depositAmount : Nat
  depositCurrency : String
  toowner : String
  privatekey : String
  toamount : Nat
  fromutxo : Nat
  watcherSubmitURL : String
  stoowner : String
  sprivatekey : String
  stoamount : Nat
  sfromutxo : Nat
  swatcherSubmitURL : String
  outputs : Nat
  watcherExitURL : String
  contractExit : String
  utxoPosition : String
  exitPrivateKey : String
  clientExit : String
  mergeFromUtxos : List Nat
  mergeWatcherURL : String
  mergePrivateKey : String
  processContract : String
  processToken : String
  processPrivateKey : String
  processExitClient : String
deriving DecidableEq, Repr

/-! ## Requests, events, environments -/

/-- Severity of a `logrus` call. -/
inductive Level where
  | info
  | warn
  | error
deriving DecidableEq, Repr

/-- One argument of a `logrus` call. -/
inductive LogArg where
  /-- A string argument. -/
  | str (s : String)
  /-- An integer argument. -/
  | num (i : Int)
  /-- An argument of type `error`, by its message. -/
  | err (e : String)
deriving DecidableEq, Repr

/-- How the process ends: `ParseArgs` returns, or `os.Exit(code)` ends it. -/
inductive Status where
  | returned
  | exited (code : Int)
deriving DecidableEq, Repr

/-- The dispatcher as a tree of collaborator calls.  `U` and `B` are the result
types of `plasma.GetUTXOsFromAddress` and `plasma.GetBalance`, which the dispatcher
only passes on to `util.DisplayUTXOS` and `util.DisplayBalance`. -/
inductive Prog (U B : Type) where
  /-- Function `ParseArgs` returns. -/
  | done
  /-- Call `os.Exit(code)`; nothing runs after it. -/
  | osExit (code : Int)
  /-- Call `log.Info`, `log.Warn` or `log.Error`. -/
  | log (level : Level) (args : List LogArg) (k : Prog U B)
  | GetUTXOsFromAddress (address watcher : String) (k : U → Prog U B)
  | DisplayUTXOS (utxos : U) (k : Prog U B)
  | GetBalance (address watcher : String) (k : B → Prog U B)
  | DisplayBalance (balance : B) (k : Prog U B)
  | GetWatcherStatus (watcher : String) (k : Prog U B)
  | DepositToPlasmaContract (d : PlasmaDeposit) (k : Prog U B)
  | DeriveAddress (key : String) (k : String → Prog U B)
  | GetUTXO (address : String) (pos : Nat) (watcher : String) (k : SingleUTXO → Prog U B)
  | SendBasicTransaction (c : PlasmaTransaction) (watcher : String) (k : Prog U B)
  | SendSplitTransaction (c : PlasmaTransaction) (watcher : String) (k : Prog U B)
  | MergeBasicTransaction (m : MergeTransaction) (watcher : String) (k : Prog U B)
  | ConvertStringToInt (s : String) (k : Int → Prog U B)
  | StartStandardExit (s : StandardExit) (watcher : String) (k : Prog U B)
  | ProcessExits (batch : Int) (p : ProcessExit) (k : Prog U B)
  | GenerateAccount (k : Prog U B)
  /-- Call `plasma.GetUTXOExitData`, which returns a value and an `error`
  (`none` is Go's `nil`). -/
  | GetUTXOExitData (watcher : String) (pos : Int) (k : ExitData → Option String → Prog U B)

/-- One executed call, with its arguments and, where the call has one, its result. -/
inductive Event (U B : Type) where
  | osExit (code : Int)
  | log (level : Level) (args : List LogArg)
  | GetUTXOsFromAddress (address watcher : String) (result : U)
  | DisplayUTXOS (utxos : U)
  | GetBalance (address watcher : String) (result : B)
  | DisplayBalance (balance : B)
  | GetWatcherStatus (watcher : String)
  | DepositToPlasmaContract (d : PlasmaDeposit)
  | DeriveAddress (key : String) (result : String)
  | GetUTXO (address : String) (pos : Nat) (watcher : String) (result : SingleUTXO)
  | SendBasicTransaction (c : PlasmaTransaction) (watcher : String)
  | SendSplitTransaction (c : PlasmaTransaction) (watcher : String)
  | MergeBasicTransaction (m : MergeTransaction) (watcher : String)
  | ConvertStringToInt (s : String) (result : Int)
  | StartStandardExit (s : StandardExit) (watcher : String)
  | ProcessExits (batch : Int) (p : ProcessExit)
  | GenerateAccount
  | GetUTXOExitData (watcher : String) (pos : Int) (result : ExitData) (err : Option String)
deriving DecidableEq, Repr

/-- The collaborators that return a value, as state-passing functions over an
arbitrary state `σ` of the outside world (watcher, chain, key material); `step` is
the effect on that state of a call whose result the dispatcher does not use. -/
structure Env (U B σ : Type) where
  GetUTXOsFromAddress : String → String → σ → U × σ
  GetBalance : String → String → σ → B × σ
  DeriveAddress : String → σ → String × σ
  GetUTXO : String → Nat → String → σ → SingleUTXO × σ
  ConvertStringToInt : String → σ → Int × σ
  GetUTXOExitData : String → Int → σ → (ExitData × Option String) × σ
  step : Event U B → σ → σ

/-- Result of a run: the calls made, in order, how the process ended, and the
final state of the outside world. -/
structure Outcome (U B σ : Type) where
  trace : List (Event U B)
  status : Status
  state : σ

/-- Put an event in front of the trace of an outcome. -/
def Outcome.cons {U B σ : Type} (e : Event U B) (o : Outcome U B σ) : Outcome U B σ :=
  { o with trace := e :: o.trace }

/-- Interpreter: executes the calls of a `Prog` from first to last against `env`. -/
def run {U B σ : Type} (env : Env U B σ) : Prog U B → σ → Outcome U B σ
  | .done, s => ⟨[], .returned, s⟩
  | .osExit code, s => ⟨[.osExit code], .exited code, s⟩
  | .log l a k, s => (run env k (env.step (.log l a) s)).cons (.log l a)
  | .GetUTXOsFromAddress a w k, s =>
      let r := env.GetUTXOsFromAddress a w s
      (run env (k r.1) r.2).cons (.GetUTXOsFromAddress a w r.1)
  | .DisplayUTXOS u k, s => (run env k (env.step (.DisplayUTXOS u) s)).cons (.DisplayUTXOS u)
  | .GetBalance a w k, s =>
      let r := env.GetBalance a w s
      (run env (k r.1) r.2).cons (.GetBalance a w r.1)
  | .DisplayBalance b k, s =>
      (run env k (env.step (.DisplayBalance b) s)).cons (.DisplayBalance b)
  | .GetWatcherStatus w k, s =>
      (run env k (env.step (.GetWatcherStatus w) s)).cons (.GetWatcherStatus w)
  | .DepositToPlasmaContract d k, s =>
      (run env k (env.step (.DepositToPlasmaContract d) s)).cons (.DepositToPlasmaContract d)
  | .DeriveAddress key k, s =>
      let r := env.DeriveAddress key s
      (run env (k r.1) r.2).cons (.DeriveAddress key r.1)
  | .GetUTXO a p w k, s =>
      let r := env.GetUTXO a p w s
      (run env (k r.1) r.2).cons (.GetUTXO a p w r.1)
  | .SendBasicTransaction c w k, s =>
      (run env k (env.step (.SendBasicTransaction c w) s)).cons (.SendBasicTransaction c w)
  | .SendSplitTransaction c w k, s =>
      (run env k (env.step (.SendSplitTransaction c w) s)).cons (.SendSplitTransaction c w)
  | .MergeBasicTransaction m w k, s =>
      (run env k (env.step (.MergeBasicTransaction m w) s)).cons (.MergeBasicTransaction m w)
  | .ConvertStringToInt str k, s =>
      let r := env.ConvertStringToInt str s
      (run env (k r.1) r.2).cons (.ConvertStringToInt str r.1)
  | .StartStandardExit x w k, s =>
      (run env k (env.step (.StartStandardExit x w) s)).cons (.StartStandardExit x w)
  | .ProcessExits n p k, s =>
      (run env k (env.step (.ProcessExits n p) s)).cons (.ProcessExits n p)
  | .GenerateAccount k, s =>
      (run env k (env.step .GenerateAccount s)).cons .GenerateAccount
  | .GetUTXOExitData w p k, s =>
      let r := env.GetUTXOExitData w p s
      (run env (k r.1.1 r.1.2) r.2).cons (.GetUTXOExitData w p r.1.1 r.1.2)

/-! ## The dispatcher -/

/-- The loop `for _, u := range utxos { us = append(us, plasma.GetUTXO(k, uint(u), *mergeWatcherURL)) }`
of the `merge` case: `us` is the slice built so far, `rest` what happens after the
loop with the finished slice. -/
def rangeUtxos {U B : Type} (k watcher : String) :
    List Nat → List SingleUTXO → (List SingleUTXO → Prog U B) → Prog U B
  | [], us, rest => rest us
  | u :: utxos, us, rest =>
      .GetUTXO k (uint (u : Int)) watcher fun r => rangeUtxos k watcher utxos (us ++ [r]) rest

/-- The function `ParseArgs` of `parser.go`.  `cmd` is the value of `kingpin.Parse()`,
`f` holds the flag variables, `HexToAddress` is `common.HexToAddress` of go-ethereum. -/
def ParseArgs {U B : Type} (HexToAddress : String → Address) (cmd : Command) (f : Flags) :
    Prog U B :=
  match cmd with
  | .getUTXO =>
      let ownerUTXOAddress := f.ownerUTXOAddress
      if ownerUTXOAddress.utf8ByteSize = 0 then
        .log .error [.str "Address is required to get UTXO data"] (.osExit 1)
      else
        .GetUTXOsFromAddress ownerUTXOAddress f.watcherURL fun utxos =>
        .DisplayUTXOS utxos .done
  | .getBalance =>
      let ownerBalanceAddress := f.ownerUTXOAddress
      if ownerBalanceAddress.utf8ByteSize = 0 then
        .log .error [.str "Address is required to get balance"] (.osExit 1)
      else
        .GetBalance ownerBalanceAddress f.watcherURL fun balance =>
        .DisplayBalance balance .done
  | .status =>
      .GetWatcherStatus f.watcherURL .done
  | .deposit =>
      let d : PlasmaDeposit :=
        { PrivateKey := f.privateKey, Client := f.client, Contract := f.contract,
          Amount := f.depositAmount, Owner := f.depositOwner, Currency := f.depositCurrency }
      .DepositToPlasmaContract d .done
  | .send =>
      .DeriveAddress f.privatekey fun k =>
      .GetUTXO k f.fromutxo f.watcherSubmitURL fun p =>
      let c : PlasmaTransaction :=
        { Blknum := uint p.Blknum,
          Txindex := uint p.Txindex,
          Oindex := uint p.Oindex,
          Cur12 := HexToAddress p.Currency,
          Toowner := HexToAddress f.toowner,
          Fromowner := HexToAddress k,
          Privatekey := f.privatekey,
          Toamount := f.toamount,
          Fromamount := uint p.Amount,
          Outputs := 0 }
      .SendBasicTransaction c f.watcherSubmitURL .done
  | .split =>
      .DeriveAddress f.sprivatekey fun k =>
      .GetUTXO k f.sfromutxo f.swatcherSubmitURL fun p =>
      let c : PlasmaTransaction :=
        { Blknum := uint p.Blknum,
          Txindex := uint p.Txindex,
          Oindex := uint p.Oindex,
          Cur12 := HexToAddress p.Currency,
          Toowner := HexToAddress f.stoowner,
          Fromowner := HexToAddress k,
          Privatekey := f.sprivatekey,
          Toamount := f.stoamount,
          Fromamount := uint p.Amount,
          Outputs := int f.outputs }
      .SendSplitTransaction c f.swatcherSubmitURL .done
  | .merge =>
      let utxos := f.mergeFromUtxos
      .DeriveAddress f.mergePrivateKey fun k =>
      .log .info [.str k] <|
      rangeUtxos k f.mergeWatcherURL utxos [] fun us =>
      let m : MergeTransaction :=
        { Utxos := us, Fromowner := HexToAddress k, Privatekey := f.mergePrivateKey }
      .MergeBasicTransaction m f.mergeWatcherURL .done
  | .exit =>
      .ConvertStringToInt f.utxoPosition fun pos =>
      let s : StandardExit :=
        { UtxoPosition := pos, Contract := f.contractExit, PrivateKey := f.exitPrivateKey,
          Client := f.clientExit }
      .log .info [.str "Attempting to exit UTXO ", .str f.utxoPosition] <|
      .StartStandardExit s f.watcherExitURL .done
  | .process =>
      let p : ProcessExit :=
        { Contract := f.processContract, PrivateKey := f.processPrivateKey,
          Token := f.processToken, Client := f.processExitClient }
      .log .info [.str "Calling process exits in the Plasma contract"] <|
      .ProcessExits 100 p .done
  | .createAccount =>
      .log .info [.str "Generating Keypair"] <|
      .GenerateAccount .done
  | .getExit =>
      .log .info [.str "Getting UTXO exit data"] <|
      .GetUTXOExitData f.watcherURL f.getExitUTXOPosition fun exitData err =>
      match err with
      | some e => .log .warn [.err e] (.osExit 0)
      | none =>
        .log .info [.str "UTXO Position: ", .num exitData.Data.UtxoPos, .str " Proof: ",
          .str exitData.Data.Proof] .done

/-! ## Reading a trace -/

/-- Calls that go to the watcher: the collaborators that take the watcher URL. -/
def Event.isWatcherCall {U B : Type} : Event U B → Bool
  | .GetUTXOsFromAddress _ _ _ => true
  | .GetBalance _ _ _ => true
  | .GetWatcherStatus _ => true
  | .GetUTXO _ _ _ _ => true
  | .SendBasicTransaction _ _ => true
  | .SendSplitTransaction _ _ => true
  | .MergeBasicTransaction _ _ => true
  | .StartStandardExit _ _ => true
  | .GetUTXOExitData _ _ _ _ => true
  | _ => false

/-- Calls that resolve a UTXO by position at the watcher (`plasma.GetUTXO`). -/
def Event.isResolve {U B : Type} : Event U B → Bool
  | .GetUTXO _ _ _ _ => true
  | _ => false

/-- Calls that build, sign and submit a transaction. -/
def Event.isSubmit {U B : Type} : Event U B → Bool
  | .SendBasicTransaction _ _ => true
  | .SendSplitTransaction _ _ => true
  | .MergeBasicTransaction _ _ => true
  | _ => false

/-- Calls of `logrus` and of `os.Exit`, which are not collaborators of the core. -/
def Event.isProcessLevel {U B : Type} : Event U B → Bool
  | .log _ _ => true
  | .osExit _ => true
  | _ => false

/-- The environment used for the concrete runs below: a stateless world in which
every key derives the address `"0xowner"`, the UTXO at position `p` has block number
`p` and amount `10`, and exit data is unavailable exactly at position `0`. -/
def demoEnv : Env Unit Unit Unit where
  GetUTXOsFromAddress := fun _ _ s => ((), s)
  GetBalance := fun _ _ s => ((), s)
  DeriveAddress := fun _ s => ("0xowner", s)
  GetUTXO := fun _ p _ s => (⟨(p : Int), 0, 0, "0x0", 10⟩, s)
  ConvertStringToInt := fun str s => ((str.toInt?.getD 0), s)
  GetUTXOExitData := fun _ p s =>
    ((⟨⟨p, "proof"⟩⟩, if p = 0 then some "exit data unavailable" else none), s)
  step := fun _ s => s

/-- A second stateless world for concrete runs: as `demoEnv`, but the watcher answers
every position with a UTXO whose block number is `-1` and whose amount is `-10`. -/
def negativeEnv : Env Unit Unit Unit where
  GetUTXOsFromAddress := fun _ _ s => ((), s)
  GetBalance := fun _ _ s => ((), s)
  DeriveAddress := fun _ s => ("0xowner", s)
  GetUTXO := fun _ _ _ s => (⟨-1, 0, 0, "0x0", -10⟩, s)
  ConvertStringToInt := fun str s => ((str.toInt?.getD 0), s)
  GetUTXOExitData := fun _ p s => ((⟨⟨p, "proof"⟩⟩, none), s)
  step := fun _ s => s

/-- A stand-in for `common.HexToAddress` in the concrete runs: the bytes of the text. -/
def demoHex (s : String) : Address := ⟨s.toList.map Char.toNat⟩

/-- Flag values for the concrete runs. -/
def demoFlags : Flags where
  watcherURL := "http://watcher"
  ownerUTXOAddress := "0xabc"
  getExitUTXOPosition := 0
  privateKey := "key"
  client := "http://client"
  contract := "0xcontract"
  depositOwner := "0xowner"
  depositAmount := 5
  depositCurrency := "ETH"
  toowner := "0xdest"
  privatekey := "key"
  toamount := 6
  fromutxo := 1000
  watcherSubmitURL := "http://watcher"
  stoowner := "0xdest"
  sprivatekey := "key"
  stoamount := 6
  sfromutxo := 1000
  swatcherSubmitURL := "http://watcher"
  outputs := 3
  watcherExitURL := "http://watcher"
  contractExit := "0xcontract"
  utxoPosition := "1000"
  exitPrivateKey := "key"
  clientExit := "http://client"
  mergeFromUtxos := [1000, 2000, 1000]
  mergeWatcherURL := "http://watcher"
  mergePrivateKey := "key"
  processContract := "0xcontract"
  processToken := "0x0"
  processPrivateKey := "key"
  processExitClient := "http://client"

/-- The `plasma.GetUTXO` calls of a trace, in call order: owner address, position,
watcher URL and the UTXO the call returned. -/
def resolved {U B : Type} : List (Event U B) → List (String × Nat × String × SingleUTXO)
  | [] => []
  | .GetUTXO a p w r :: tr => (a, p, w, r) :: resolved tr
  | _ :: tr => resolved tr

/-- Flags of a `merge` invocation with five input positions. -/
def mergeFiveFlags : Flags := { demoFlags with mergeFromUtxos := [1, 2, 3, 4, 5] }

/-- Flags of a `merge` invocation with a single input position. -/
def mergeOneFlags : Flags := { demoFlags with mergeFromUtxos := [1000] }

/-- Flags of a `split` invocation that asks for five outputs. -/
def splitFiveFlags : Flags := { demoFlags with outputs := 5 }

/-- Flags of a `split` invocation that asks for one output. -/
def splitOneFlags : Flags := { demoFlags with outputs := 1 }

/-- Flags of a `split` invocation whose output count is the largest `uint64`. -/
def splitMaxFlags : Flags := { demoFlags with outputs := 2 ^ 64 - 1 }

/-- Flags of a `get utxos` or `get balance` invocation without an address. -/
def noAddressFlags : Flags := { demoFlags with ownerUTXOAddress := "" }

/-! ## Auxiliary facts -/

/-- A Go string has length zero exactly when it is the empty string. -/
theorem utf8ByteSize_eq_zero_iff (s : String) : s.utf8ByteSize = 0 ↔ s = "" := by
  constructor
  · intro h
    rcases s with ⟨cs⟩
    cases cs with
    | nil => rfl
    | cons c cs =>
      exfalso
      have hc := Char.utf8Size_pos c
      simp only [String.utf8ByteSize, String.utf8ByteSize.go] at h
      omega
  · rintro rfl
    rfl

/-- Conversion `uint(u)` leaves a value that fits in `UintSize` bits unchanged. -/
theorem uint_natCast (u : Nat) (h : u < 2 ^ 64) : uint (u : Int) = u := by
  unfold uint UintSize
  have h1 : ((u : Int)) % (2 : Int) ^ 64 = (u : Int) :=
    Int.emod_eq_of_lt (Int.ofNat_nonneg u) (by exact_mod_cast h)
  rw [h1]
  exact Int.toNat_ofNat u

/-- Conversion `uint(x)` leaves a non-negative integer below `2 ^ 64` unchanged. -/
theorem uint_of_range (x : Int) (h0 : 0 ≤ x) (h1 : x < 2 ^ 64) : ((uint x : Nat) : Int) = x := by
  unfold uint UintSize
  rw [Int.emod_eq_of_lt h0 h1]
  exact Int.toNat_of_nonneg h0

/-- Conversion `uint(x)` is the residue of `x` modulo `2 ^ 64`. -/
theorem uint_emod (x : Int) : ((uint x : Nat) : Int) = x % 2 ^ 64 := by
  unfold uint UintSize
  exact Int.toNat_of_nonneg (Int.emod_nonneg x (by norm_num))

/-- Conversion `int(n)` of a 64-bit value below `2 ^ 63`. -/
theorem int_small (n : Nat) (h : n < 2 ^ 63) : int n = (n : Int) := by
  unfold int UintSize
  have h1 : n % 2 ^ 64 = n := Nat.mod_eq_of_lt (by omega)
  rw [h1]
  simp only [Nat.add_one_sub_one]
  rw [if_pos (by omega)]

/-- Conversion `int(n)` of a 64-bit value from `2 ^ 63` on. -/
theorem int_large (n : Nat) (h : 2 ^ 63 ≤ n) (h64 : n < 2 ^ 64) :
    int n = (n : Int) - 2 ^ 64 := by
  unfold int UintSize
  have h1 : n % 2 ^ 64 = n := Nat.mod_eq_of_lt h64
  rw [h1]
  simp only [Nat.add_one_sub_one]
  rw [if_neg (by omega)]

/-- Trace of a run that starts with one more event. -/
theorem cons_trace {U B σ : Type} (e : Event U B) (o : Outcome U B σ) :
    (o.cons e).trace = e :: o.trace := rfl

/-- Status of a run that starts with one more event. -/
theorem cons_status {U B σ : Type} (e : Event U B) (o : Outcome U B σ) :
    (o.cons e).status = o.status := rfl

/-- The loop of the `merge` case makes one `plasma.GetUTXO` call per position, in the
order of the list, and hands the slice extended by the answers to what follows. -/
theorem run_rangeUtxos {U B σ : Type} (env : Env U B σ) (k watcher : String)
    (utxos : List Nat) (us : List SingleUTXO) (rest : List SingleUTXO → Prog U B) (s : σ) :
    ∃ (rs : List SingleUTXO) (s1 : σ), rs.length = utxos.length ∧
      (run env (rangeUtxos k watcher utxos us rest) s).trace =
        List.zipWith (fun (u : Nat) (r : SingleUTXO) => Event.GetUTXO k (uint (u : Int)) watcher r) utxos rs ++
          (run env (rest (us ++ rs)) s1).trace ∧
      (run env (rangeUtxos k watcher utxos us rest) s).status =
        (run env (rest (us ++ rs)) s1).status := by
  induction utxos generalizing us s with
  | nil => exact ⟨[], s, rfl, by simp [rangeUtxos], by simp [rangeUtxos]⟩
  | cons u utxos ih =>
    obtain ⟨rs, s1, hlen, htr, hst⟩ :=
      ih (us ++ [(env.GetUTXO k (uint (u : Int)) watcher s).1])
        (env.GetUTXO k (uint (u : Int)) watcher s).2
    refine ⟨(env.GetUTXO k (uint (u : Int)) watcher s).1 :: rs, s1, by simp [hlen], ?_, ?_⟩
    · simp only [rangeUtxos, run, cons_trace, htr, List.zipWith_cons_cons, List.cons_append,
        List.append_assoc, List.singleton_append, List.nil_append]
    · simp only [rangeUtxos, run, cons_status, hst, List.append_assoc, List.singleton_append,
        List.cons_append, List.nil_append]

/-- The complete run of the `merge` case: derive the address, log it, resolve every
position in the order supplied, hand over the merge transaction, return. -/
theorem merge_run {U B σ : Type} (env : Env U B σ) (hex : String → Address) (f : Flags)
    (s : σ) :
    ∃ rs : List SingleUTXO, rs.length = f.mergeFromUtxos.length ∧
      (run env (ParseArgs hex .merge f) s).trace =
        Event.DeriveAddress f.mergePrivateKey (env.DeriveAddress f.mergePrivateKey s).1 ::
        Event.log .info [.str (env.DeriveAddress f.mergePrivateKey s).1] ::
        (List.zipWith (fun (u : Nat) (r : SingleUTXO) =>
            Event.GetUTXO (env.DeriveAddress f.mergePrivateKey s).1
              ((fun u : Nat => uint (u : Int)) u) f.mergeWatcherURL r) f.mergeFromUtxos rs ++
        [Event.MergeBasicTransaction
          ⟨rs, hex (env.DeriveAddress f.mergePrivateKey s).1, f.mergePrivateKey⟩
          f.mergeWatcherURL]) ∧
      (run env (ParseArgs hex .merge f) s).status = .returned := by
  obtain ⟨rs, s1, hlen, htr, hst⟩ := run_rangeUtxos env (env.DeriveAddress f.mergePrivateKey s).1
    f.mergeWatcherURL f.mergeFromUtxos []
    (fun us => Prog.MergeBasicTransaction
      ⟨us, hex (env.DeriveAddress f.mergePrivateKey s).1, f.mergePrivateKey⟩
      f.mergeWatcherURL Prog.done)
    (env.step (.log .info [.str (env.DeriveAddress f.mergePrivateKey s).1])
      (env.DeriveAddress f.mergePrivateKey s).2)
  refine ⟨rs, hlen, ?_, ?_⟩
  · simp only [ParseArgs, run, cons_trace, htr, List.nil_append, List.cons_append]
  · simp only [ParseArgs, run, cons_status, hst, List.nil_append]

/-- A `DeriveAddress` call is not a resolution. -/
theorem resolved_DeriveAddress {U B : Type} (key k : String) (tl : List (Event U B)) :
    resolved (Event.DeriveAddress key k :: tl) = resolved tl := rfl

/-- A `logrus` call is not a resolution. -/
theorem resolved_log {U B : Type} (l : Level) (a : List LogArg) (tl : List (Event U B)) :
    resolved (Event.log l a :: tl) = resolved tl := rfl

/-- The resolutions of a block of `plasma.GetUTXO` calls followed by other calls. -/
theorem resolved_zipWith_append {U B : Type} (k w : String) (g : Nat → Nat)
    (us : List Nat) (rs : List SingleUTXO) (tl : List (Event U B)) :
    resolved (List.zipWith (fun (u : Nat) (r : SingleUTXO) => Event.GetUTXO k (g u) w r) us rs
        ++ tl) =
      List.zipWith (fun (u : Nat) (r : SingleUTXO) => (k, g u, w, r)) us rs ++ resolved tl := by
  induction us generalizing rs with
  | nil => simp
  | cons u us ih =>
    cases rs with
    | nil => simp
    | cons r rs => simp [resolved, ih]

/-- The calls kept by a filter that accepts every `plasma.GetUTXO` call. -/
theorem filter_zipWith_resolve {U B : Type} (k w : String) (g : Nat → Nat)
    (us : List Nat) (rs : List SingleUTXO) :
    (List.zipWith (fun (u : Nat) (r : SingleUTXO) => (Event.GetUTXO k (g u) w r : Event U B))
        us rs).filter Event.isResolve =
      List.zipWith (fun (u : Nat) (r : SingleUTXO) => Event.GetUTXO k (g u) w r) us rs := by
  induction us generalizing rs with
  | nil => simp
  | cons u us ih =>
    cases rs with
    | nil => simp
    | cons r rs => simp [Event.isResolve, ih]

/-- No `plasma.GetUTXO` call is a submission. -/
theorem filter_zipWith_submit {U B : Type} (k w : String) (g : Nat → Nat)
    (us : List Nat) (rs : List SingleUTXO) :
    (List.zipWith (fun (u : Nat) (r : SingleUTXO) => (Event.GetUTXO k (g u) w r : Event U B))
        us rs).filter Event.isSubmit = [] := by
  induction us generalizing rs with
  | nil => simp
  | cons u us ih =>
    cases rs with
    | nil => simp
    | cons r rs => simp [Event.isSubmit, ih]

/-- The submissions of a trace of the `merge` shape: the final call only. -/
theorem filter_submit_merge_shape {U B : Type} (key k w : String) (a : List LogArg)
    (g : Nat → Nat) (us : List Nat) (rs : List SingleUTXO) (m : MergeTransaction) :
    (Event.DeriveAddress key k :: Event.log .info a ::
      (List.zipWith (fun (u : Nat) (r : SingleUTXO) => (Event.GetUTXO k (g u) w r : Event U B))
        us rs ++ [Event.MergeBasicTransaction m w])).filter Event.isSubmit =
      [Event.MergeBasicTransaction m w] := by
  have h1 : Event.isSubmit (Event.DeriveAddress key k : Event U B) = false := rfl
  have h2 : Event.isSubmit (Event.log .info a : Event U B) = false := rfl
  have h3 : Event.isSubmit (Event.MergeBasicTransaction m w : Event U B) = true := rfl
  rw [List.filter_cons_of_neg (by simp [h1]), List.filter_cons_of_neg (by simp [h2]),
    List.filter_append, filter_zipWith_submit, List.nil_append,
    List.filter_cons_of_pos (by simp [h3]), List.filter_nil]

/-- The resolutions of a trace of the `merge` shape: the block of `plasma.GetUTXO` calls. -/
theorem filter_resolve_merge_shape {U B : Type} (key k w : String) (a : List LogArg)
    (g : Nat → Nat) (us : List Nat) (rs : List SingleUTXO) (m : MergeTransaction) :
    (Event.DeriveAddress key k :: Event.log .info a ::
      (List.zipWith (fun (u : Nat) (r : SingleUTXO) => (Event.GetUTXO k (g u) w r : Event U B))
        us rs ++ [Event.MergeBasicTransaction m w])).filter Event.isResolve =
      List.zipWith (fun (u : Nat) (r : SingleUTXO) => Event.GetUTXO k (g u) w r) us rs := by
  have h1 : Event.isResolve (Event.DeriveAddress key k : Event U B) = false := rfl
  have h2 : Event.isResolve (Event.log .info a : Event U B) = false := rfl
  have h3 : Event.isResolve (Event.MergeBasicTransaction m w : Event U B) = false := rfl
  rw [List.filter_cons_of_neg (by simp [h1]), List.filter_cons_of_neg (by simp [h2]),
    List.filter_append, filter_zipWith_resolve,
    List.filter_cons_of_neg (by simp [h3]), List.filter_nil, List.append_nil]

/-- Positions of a block of resolutions, when there is one answer per position. -/
theorem map_pos_zipWith (k w : String) (g : Nat → Nat) (us : List Nat) (rs : List SingleUTXO)
    (h : rs.length = us.length) :
    (List.zipWith (fun (u : Nat) (r : SingleUTXO) => (k, g u, w, r)) us rs).map
        (fun x => x.2.1) = us.map g := by
  induction us generalizing rs with
  | nil => simp
  | cons u us ih =>
    cases rs with
    | nil => simp at h
    | cons r rs =>
      simp only [List.zipWith_cons_cons, List.map_cons, List.cons.injEq, true_and]
      exact ih rs (by simpa using h)

/-- Answers of a block of resolutions, when there is one answer per position. -/
theorem map_res_zipWith (k w : String) (g : Nat → Nat) (us : List Nat) (rs : List SingleUTXO)
    (h : rs.length = us.length) :
    (List.zipWith (fun (u : Nat) (r : SingleUTXO) => (k, g u, w, r)) us rs).map
        (fun x => x.2.2.2) = rs := by
  induction us generalizing rs with
  | nil =>
    cases rs with
    | nil => rfl
    | cons r rs => simp at h
  | cons u us ih =>
    cases rs with
    | nil => simp at h
    | cons r rs =>
      simp only [List.zipWith_cons_cons, List.map_cons, List.cons.injEq, true_and]
      exact ih rs (by simpa using h)

/-- Owner addresses of a block of resolutions, when there is one answer per position. -/
theorem map_owner_zipWith (k w : String) (g : Nat → Nat) (us : List Nat)
    (rs : List SingleUTXO) (h : rs.length = us.length) :
    (List.zipWith (fun (u : Nat) (r : SingleUTXO) => (k, g u, w, r)) us rs).map
        (fun x => x.1) = List.replicate us.length k := by
  induction us generalizing rs with
  | nil => simp
  | cons u us ih =>
    cases rs with
    | nil => simp at h
    | cons r rs =>
      simp only [List.zipWith_cons_cons, List.map_cons, List.length_cons, List.replicate_succ,
        List.cons.injEq, true_and]
      exact ih rs (by simpa using h)

/-- Conversion `uint(u)` is the identity on a list of 64-bit values. -/
theorem map_uint_of_range (us : List Nat) (h : ∀ u ∈ us, u < 2 ^ 64) :
    us.map (fun u : Nat => uint (u : Int)) = us := by
  induction us with
  | nil => rfl
  | cons u us ih =>
    simp only [List.map_cons, List.cons.injEq]
    exact ⟨uint_natCast u (h u (List.mem_cons_self u us)),
      ih (fun v hv => h v (List.mem_cons_of_mem u hv))⟩

/-- On 64-bit positions the conversion `uint(u)` of the loop changes no `GetUTXO` call. -/
theorem zipWith_uint_of_range {U B : Type} (k w : String) (us : List Nat)
    (rs : List SingleUTXO) (h : ∀ u ∈ us, u < 2 ^ 64) :
    List.zipWith (fun (u : Nat) (r : SingleUTXO) =>
        (Event.GetUTXO k (uint (u : Int)) w r : Event U B)) us rs =
      List.zipWith (fun (u : Nat) (r : SingleUTXO) => Event.GetUTXO k u w r) us rs := by
  induction us generalizing rs with
  | nil => simp
  | cons u us ih =>
    cases rs with
    | nil => simp
    | cons r rs =>
      simp only [List.zipWith_cons_cons, List.cons.injEq]
      exact ⟨by rw [uint_natCast u (h u (List.mem_cons_self u us))],
        ih rs (fun v hv => h v (List.mem_cons_of_mem u hv))⟩

/-- Owner and position of a block of resolutions, when there is one answer per position. -/
theorem map_owner_pos_zipWith (k w : String) (g : Nat → Nat) (us : List Nat)
    (rs : List SingleUTXO) (h : rs.length = us.length) :
    (List.zipWith (fun (u : Nat) (r : SingleUTXO) => (k, g u, w, r)) us rs).map
        (fun x => (x.1, x.2.1, x.2.2.1)) = us.map (fun u => (k, g u, w)) := by
  induction us generalizing rs with
  | nil => simp
  | cons u us ih =>
    cases rs with
    | nil => simp at h
    | cons r rs =>
      simp only [List.zipWith_cons_cons, List.map_cons, List.cons.injEq, true_and]
      exact ih rs (by simpa using h)

/-- The complete run of the `merge` case on 64-bit positions: every `GetUTXO` call is
made at the supplied position itself. -/
theorem merge_run_of_range {U B σ : Type} (env : Env U B σ) (hex : String → Address)
    (f : Flags) (s : σ) (h : ∀ u ∈ f.mergeFromUtxos, u < 2 ^ 64) :
    ∃ rs : List SingleUTXO, rs.length = f.mergeFromUtxos.length ∧
      (run env (ParseArgs hex .merge f) s).trace =
        Event.DeriveAddress f.mergePrivateKey (env.DeriveAddress f.mergePrivateKey s).1 ::
        Event.log .info [.str (env.DeriveAddress f.mergePrivateKey s).1] ::
        (List.zipWith (fun (u : Nat) (r : SingleUTXO) =>
            Event.GetUTXO (env.DeriveAddress f.mergePrivateKey s).1 u f.mergeWatcherURL r)
          f.mergeFromUtxos rs ++
        [Event.MergeBasicTransaction
          ⟨rs, hex (env.DeriveAddress f.mergePrivateKey s).1, f.mergePrivateKey⟩
          f.mergeWatcherURL]) ∧
      (run env (ParseArgs hex .merge f) s).status = .returned := by
  obtain ⟨rs, hlen, htr, hst⟩ := merge_run env hex f s
  refine ⟨rs, hlen, ?_, hst⟩
  rw [htr]
  simp only [zipWith_uint_of_range _ _ _ _ h]

/-! ## The claims -/

/-- C1: in every `get exit` run in which `plasma.GetUTXOExitData` returned an error,
the dispatcher makes exactly four calls: the announcement `log.Info`, the one
`GetUTXOExitData` call with the watcher URL and the position flag, `log.Warn` with that
error, and `os.Exit(0)`; no position or proof is logged, `GetUTXOExitData` is the only
call that is neither logging nor `os.Exit`, and the process ends with status 0. -/
theorem getExit_error_warns_and_exits_zero {U B σ : Type} (env : Env U B σ)
    (hex : String → Address) (f : Flags) (s : σ) (w : String) (p : Int) (d : ExitData)
    (e : String)
    (h : Event.GetUTXOExitData w p d (some e) ∈ (run env (ParseArgs hex .getExit f) s).trace) :
    (run env (ParseArgs hex .getExit f) s).trace =
      [Event.log .info [.str "Getting UTXO exit data"],
       Event.GetUTXOExitData f.watcherURL f.getExitUTXOPosition d (some e),
       Event.log .warn [.err e],
       Event.osExit 0] ∧
    (run env (ParseArgs hex .getExit f) s).trace.filter (fun ev => !ev.isProcessLevel) =
      [Event.GetUTXOExitData f.watcherURL f.getExitUTXOPosition d (some e)] ∧
    (run env (ParseArgs hex .getExit f) s).status = .exited 0 := by
  revert h
  simp only [ParseArgs, run, cons_trace, cons_status]
  generalize env.GetUTXOExitData f.watcherURL f.getExitUTXOPosition
    (env.step (Event.log Level.info [LogArg.str "Getting UTXO exit data"]) s) = r
  rcases r with ⟨⟨d1, err⟩, s1⟩
  cases err with
  | none => simp [run, cons_trace]
  | some e1 =>
    simp only [run, cons_trace, cons_status]
    intro h
    simp at h
    obtain ⟨-, -, rfl, rfl⟩ := h
    exact ⟨rfl, rfl, trivial⟩

/-- Witness of C1: position `0` of the demonstration watcher has no exit data. -/
theorem getExit_error_warns_and_exits_zero_witness :
    (run demoEnv (ParseArgs demoHex .getExit demoFlags) ()).trace =
      [Event.log .info [.str "Getting UTXO exit data"],
       Event.GetUTXOExitData "http://watcher" 0 ⟨⟨0, "proof"⟩⟩ (some "exit data unavailable"),
       Event.log .warn [.err "exit data unavailable"],
       Event.osExit 0] ∧
    (run demoEnv (ParseArgs demoHex .getExit demoFlags) ()).trace.filter
        (fun ev => !ev.isProcessLevel) =
      [Event.GetUTXOExitData "http://watcher" 0 ⟨⟨0, "proof"⟩⟩ (some "exit data unavailable")] ∧
    (run demoEnv (ParseArgs demoHex .getExit demoFlags) ()).status = .exited 0 :=
  getExit_error_warns_and_exits_zero demoEnv demoHex demoFlags () "http://watcher" 0
    ⟨⟨0, "proof"⟩⟩ "exit data unavailable" (by decide)

/-- C2: for `get utxos` and for `get balance`, when the address flag is the empty string
the run consists of `log.Error` and `os.Exit(1)` only, so the process ends with status 1
and no call reaches the watcher; for every other address the run is one lookup
(`GetUTXOsFromAddress`, respectively `GetBalance`) with that address and the watcher URL
flag, followed by the display of its answer, and that lookup is the only watcher call. -/
theorem address_checked_before_lookup {U B σ : Type} (env : Env U B σ)
    (hex : String → Address) (f : Flags) (s : σ) :
    ((run env (ParseArgs hex .getUTXO f) s).trace =
        (if f.ownerUTXOAddress = "" then
          [Event.log .error [.str "Address is required to get UTXO data"], Event.osExit 1]
        else
          [Event.GetUTXOsFromAddress f.ownerUTXOAddress f.watcherURL
              (env.GetUTXOsFromAddress f.ownerUTXOAddress f.watcherURL s).1,
           Event.DisplayUTXOS (env.GetUTXOsFromAddress f.ownerUTXOAddress f.watcherURL s).1]) ∧
      (run env (ParseArgs hex .getUTXO f) s).status =
        (if f.ownerUTXOAddress = "" then .exited 1 else .returned) ∧
      (run env (ParseArgs hex .getUTXO f) s).trace.filter Event.isWatcherCall =
        (if f.ownerUTXOAddress = "" then []
        else [Event.GetUTXOsFromAddress f.ownerUTXOAddress f.watcherURL
              (env.GetUTXOsFromAddress f.ownerUTXOAddress f.watcherURL s).1])) ∧
    ((run env (ParseArgs hex .getBalance f) s).trace =
        (if f.ownerUTXOAddress = "" then
          [Event.log .error [.str "Address is required to get balance"], Event.osExit 1]
        else
          [Event.GetBalance f.ownerUTXOAddress f.watcherURL
              (env.GetBalance f.ownerUTXOAddress f.watcherURL s).1,
           Event.DisplayBalance (env.GetBalance f.ownerUTXOAddress f.watcherURL s).1]) ∧
      (run env (ParseArgs hex .getBalance f) s).status =
        (if f.ownerUTXOAddress = "" then .exited 1 else .returned) ∧
      (run env (ParseArgs hex .getBalance f) s).trace.filter Event.isWatcherCall =
        (if f.ownerUTXOAddress = "" then []
        else [Event.GetBalance f.ownerUTXOAddress f.watcherURL
              (env.GetBalance f.ownerUTXOAddress f.watcherURL s).1])) := by
  by_cases h : f.ownerUTXOAddress = ""
  · have h0 : f.ownerUTXOAddress.utf8ByteSize = 0 := (utf8ByteSize_eq_zero_iff _).2 h
    simp [ParseArgs, run, cons_trace, cons_status, h0, h, Event.isWatcherCall]
  · have h0 : ¬ f.ownerUTXOAddress.utf8ByteSize = 0 := fun hz =>
      h ((utf8ByteSize_eq_zero_iff _).1 hz)
    simp [ParseArgs, run, cons_trace, cons_status, h0, h, Event.isWatcherCall]

/-- Instance of C2 without an address: `get utxos` and `get balance` end with status 1
and no call has reached the watcher. -/
theorem address_checked_before_lookup_witness :
    ((run demoEnv (ParseArgs demoHex .getUTXO noAddressFlags) ()).status = .exited 1 ∧
      (run demoEnv (ParseArgs demoHex .getUTXO noAddressFlags) ()).trace.filter
        Event.isWatcherCall = []) ∧
    ((run demoEnv (ParseArgs demoHex .getBalance noAddressFlags) ()).status = .exited 1 ∧
      (run demoEnv (ParseArgs demoHex .getBalance noAddressFlags) ()).trace.filter
        Event.isWatcherCall = []) :=
  ⟨(address_checked_before_lookup demoEnv demoHex noAddressFlags ()).1.2,
   (address_checked_before_lookup demoEnv demoHex noAddressFlags ()).2.2⟩

/-- C6: every `process` run is the announcement `log.Info` followed by exactly one call
of `plasma.ProcessExits`, with the batch size 100 (a positive number) and with the
contract, private key, token and client of the flags; then `ParseArgs` returns. -/
theorem process_calls_ProcessExits_once {U B σ : Type} (env : Env U B σ)
    (hex : String → Address) (f : Flags) (s : σ) :
    (run env (ParseArgs hex .process f) s).trace =
      [Event.log .info [.str "Calling process exits in the Plasma contract"],
       Event.ProcessExits 100
        { Contract := f.processContract, PrivateKey := f.processPrivateKey,
          Token := f.processToken, Client := f.processExitClient }] ∧
    (run env (ParseArgs hex .process f) s).status = .returned ∧
    (∀ (n : Int) (p : ProcessExit),
      Event.ProcessExits n p ∈ (run env (ParseArgs hex .process f) s).trace → n = 100 ∧ 0 < n) := by
  refine ⟨by simp [ParseArgs, run, cons_trace], by simp [ParseArgs, run, cons_status], ?_⟩
  intro n p hmem
  simp [ParseArgs, run, cons_trace] at hmem
  omega

/-- C9: every `exit` run is the conversion of the `utxo` flag, the announcement
`log.Info`, and exactly one call of `StartStandardExit`, on the exit request whose
position is the converted flag and whose contract, private key and client are the flags,
with the watcher URL flag; no UTXO is resolved, no transaction is submitted, and
`ParseArgs` returns. -/
theorem exit_starts_standard_exit_once {U B σ : Type} (env : Env U B σ)
    (hex : String → Address) (f : Flags) (s : σ) :
    (run env (ParseArgs hex .exit f) s).trace =
      [Event.ConvertStringToInt f.utxoPosition (env.ConvertStringToInt f.utxoPosition s).1,
       Event.log .info [.str "Attempting to exit UTXO ", .str f.utxoPosition],
       Event.StartStandardExit
        { UtxoPosition := (env.ConvertStringToInt f.utxoPosition s).1,
          Contract := f.contractExit, PrivateKey := f.exitPrivateKey, Client := f.clientExit }
        f.watcherExitURL] ∧
    (run env (ParseArgs hex .exit f) s).status = .returned ∧
    (run env (ParseArgs hex .exit f) s).trace.filter Event.isResolve = [] ∧
    (run env (ParseArgs hex .exit f) s).trace.filter Event.isSubmit = [] := by
  have htr : (run env (ParseArgs hex .exit f) s).trace =
      [Event.ConvertStringToInt f.utxoPosition (env.ConvertStringToInt f.utxoPosition s).1,
       Event.log .info [.str "Attempting to exit UTXO ", .str f.utxoPosition],
       Event.StartStandardExit
        { UtxoPosition := (env.ConvertStringToInt f.utxoPosition s).1,
          Contract := f.contractExit, PrivateKey := f.exitPrivateKey, Client := f.clientExit }
        f.watcherExitURL] := by
    simp only [ParseArgs, run, cons_trace]
  refine ⟨htr, ?_, ?_, ?_⟩
  · simp only [ParseArgs, run, cons_status]
  · rw [htr]
    rfl
  · rw [htr]
    rfl

/-- C7, as the code behaves: every `send` run is exactly three calls, in this order:
`DeriveAddress` on the private key flag, `GetUTXO` under the address that call returned
(not under the destination) at the `fromutxo` position, and `SendBasicTransaction` on
the transaction built from the one UTXO that `GetUTXO` returned.  Its block number,
transaction index, output index and source amount are the `uint` conversions of the
fields of that UTXO: the field modulo `2 ^ 64`, hence the field itself whenever it lies
between 0 and `2 ^ 64 - 1`.  Its currency is the address form of the currency of the
UTXO, its source owner the address form of the derived address, its destination owner
the address form of the `toowner` flag, its destination amount the `toamount` flag. -/
theorem send_builds_from_resolved_utxo {U B σ : Type} (env : Env U B σ)
    (hex : String → Address) (f : Flags) (s : σ) :
    ∃ (k : String) (p : SingleUTXO),
      k = (env.DeriveAddress f.privatekey s).1 ∧
      p = (env.GetUTXO k f.fromutxo f.watcherSubmitURL (env.DeriveAddress f.privatekey s).2).1 ∧
      (run env (ParseArgs hex .send f) s).trace =
        [Event.DeriveAddress f.privatekey k,
         Event.GetUTXO k f.fromutxo f.watcherSubmitURL p,
         Event.SendBasicTransaction
          { Blknum := uint p.Blknum,
            Txindex := uint p.Txindex,
            Oindex := uint p.Oindex,
            Cur12 := hex p.Currency,
            Toowner := hex f.toowner,
            Fromowner := hex k,
            Privatekey := f.privatekey,
            Toamount := f.toamount,
            Fromamount := uint p.Amount,
            Outputs := 0 }
          f.watcherSubmitURL] ∧
      (run env (ParseArgs hex .send f) s).status = .returned ∧
      ((uint p.Blknum : Int) = p.Blknum % 2 ^ 64 ∧ (uint p.Txindex : Int) = p.Txindex % 2 ^ 64 ∧
        (uint p.Oindex : Int) = p.Oindex % 2 ^ 64 ∧ (uint p.Amount : Int) = p.Amount % 2 ^ 64) ∧
      (0 ≤ p.Blknum → p.Blknum < 2 ^ 64 → (uint p.Blknum : Int) = p.Blknum) ∧
      (0 ≤ p.Txindex → p.Txindex < 2 ^ 64 → (uint p.Txindex : Int) = p.Txindex) ∧
      (0 ≤ p.Oindex → p.Oindex < 2 ^ 64 → (uint p.Oindex : Int) = p.Oindex) ∧
      (0 ≤ p.Amount → p.Amount < 2 ^ 64 → (uint p.Amount : Int) = p.Amount) := by
  refine ⟨_, _, rfl, rfl, ?_, ?_, ⟨uint_emod _, uint_emod _, uint_emod _, uint_emod _⟩,
    uint_of_range _, uint_of_range _, uint_of_range _, uint_of_range _⟩
  · simp only [ParseArgs, run, cons_trace]
  · simp only [ParseArgs, run, cons_status]

/-- Instance of C7 with a UTXO whose fields are in range (block number 1000, amount 10):
the transaction carries those very numbers. -/
theorem send_builds_from_resolved_utxo_witness :
    ∃ (k : String) (p : SingleUTXO),
      (run demoEnv (ParseArgs demoHex .send demoFlags) ()).trace =
        [Event.DeriveAddress "key" k,
         Event.GetUTXO k 1000 "http://watcher" p,
         Event.SendBasicTransaction
          { Blknum := uint p.Blknum,
            Txindex := uint p.Txindex,
            Oindex := uint p.Oindex,
            Cur12 := demoHex p.Currency,
            Toowner := demoHex "0xdest",
            Fromowner := demoHex k,
            Privatekey := "key",
            Toamount := 6,
            Fromamount := uint p.Amount,
            Outputs := 0 }
          "http://watcher"] ∧
      (uint p.Blknum : Int) = p.Blknum ∧ (uint p.Txindex : Int) = p.Txindex ∧
      (uint p.Oindex : Int) = p.Oindex ∧ (uint p.Amount : Int) = p.Amount := by
  obtain ⟨k, p, hk, hp, htr, -, -, hB, hT, hO, hA⟩ :=
    send_builds_from_resolved_utxo demoEnv demoHex demoFlags ()
  subst hk
  subst hp
  exact ⟨_, _, htr, hB (by decide) (by decide), hT (by decide) (by decide),
    hO (by decide) (by decide), hA (by decide) (by decide)⟩

/-- C7 fails as stated: when the watcher answers with block number `-1` and amount
`-10`, the transaction handed to `SendBasicTransaction` has block number `2 ^ 64 - 1`
and source amount `2 ^ 64 - 10`, which are not the numbers of the resolved UTXO. -/
theorem send_fields_wrap_counterexample :
    (run negativeEnv (ParseArgs demoHex .send demoFlags) ()).trace =
      [Event.DeriveAddress "key" "0xowner",
       Event.GetUTXO "0xowner" 1000 "http://watcher" ⟨-1, 0, 0, "0x0", -10⟩,
       Event.SendBasicTransaction
        ⟨18446744073709551615, 0, 0, demoHex "0x0", demoHex "0xdest", demoHex "0xowner",
          "key", 6, 18446744073709551606, 0⟩
        "http://watcher"] ∧
    ((18446744073709551615 : Nat) : Int) ≠ -1 ∧
    ((18446744073709551606 : Nat) : Int) ≠ -10 := by
  decide

/-- C3: in every `merge` run whose positions are 64-bit values, one merge transaction is
handed to `MergeBasicTransaction`; its UTXO list has as many elements as positions were
supplied, there are as many `GetUTXO` calls, and for every index `i` the `i`-th
`GetUTXO` call is made at the `i`-th supplied position and its answer is the `i`-th
element of the UTXO list (supplied order, duplicates included). -/
theorem merge_preserves_supplied_order {U B σ : Type} (env : Env U B σ)
    (hex : String → Address) (f : Flags) (s : σ)
    (h : ∀ u ∈ f.mergeFromUtxos, u < 2 ^ 64) :
    ∃ m : MergeTransaction,
      (run env (ParseArgs hex .merge f) s).trace.filter Event.isSubmit =
        [Event.MergeBasicTransaction m f.mergeWatcherURL] ∧
      m.Utxos.length = f.mergeFromUtxos.length ∧
      (resolved (run env (ParseArgs hex .merge f) s).trace).length = f.mergeFromUtxos.length ∧
      ∀ i : Nat,
        ((resolved (run env (ParseArgs hex .merge f) s).trace)[i]?).map (fun x => x.2.1) =
          f.mergeFromUtxos[i]? ∧
        ((resolved (run env (ParseArgs hex .merge f) s).trace)[i]?).map (fun x => x.2.2.2) =
          m.Utxos[i]? := by
  obtain ⟨rs, hlen, htr, -⟩ := merge_run env hex f s
  have hres : resolved (run env (ParseArgs hex .merge f) s).trace =
      List.zipWith (fun (u : Nat) (r : SingleUTXO) =>
        ((env.DeriveAddress f.mergePrivateKey s).1, (fun u : Nat => uint (u : Int)) u,
          f.mergeWatcherURL, r)) f.mergeFromUtxos rs := by
    rw [htr, resolved_DeriveAddress, resolved_log,
      resolved_zipWith_append _ _ (fun u : Nat => uint (u : Int))]
    simp [resolved]
  have hpos := map_pos_zipWith (env.DeriveAddress f.mergePrivateKey s).1 f.mergeWatcherURL
    (fun u : Nat => uint (u : Int)) f.mergeFromUtxos rs hlen
  have hans := map_res_zipWith (env.DeriveAddress f.mergePrivateKey s).1 f.mergeWatcherURL
    (fun u : Nat => uint (u : Int)) f.mergeFromUtxos rs hlen
  rw [map_uint_of_range _ h] at hpos
  refine ⟨⟨rs, hex (env.DeriveAddress f.mergePrivateKey s).1, f.mergePrivateKey⟩, ?_, hlen,
    ?_, ?_⟩
  · rw [htr]
    exact filter_submit_merge_shape _ _ _ _ (fun u : Nat => uint (u : Int)) _ _ _
  · rw [hres]
    simp [hlen]
  · intro i
    rw [hres]
    constructor
    · rw [← List.getElem?_map, hpos]
    · rw [← List.getElem?_map, hans]

/-- Witness of C3: the positions `1000, 2000, 1000`, a list with a duplicate. -/
theorem merge_preserves_supplied_order_witness :
    (∀ u ∈ demoFlags.mergeFromUtxos, u < 2 ^ 64) ∧
    ∃ m : MergeTransaction,
      (run demoEnv (ParseArgs demoHex .merge demoFlags) ()).trace.filter Event.isSubmit =
        [Event.MergeBasicTransaction m demoFlags.mergeWatcherURL] ∧
      m.Utxos.length = demoFlags.mergeFromUtxos.length ∧
      (resolved (run demoEnv (ParseArgs demoHex .merge demoFlags) ()).trace).length =
        demoFlags.mergeFromUtxos.length ∧
      ∀ i : Nat,
        ((resolved (run demoEnv (ParseArgs demoHex .merge demoFlags) ()).trace)[i]?).map
          (fun x => x.2.1) = demoFlags.mergeFromUtxos[i]? ∧
        ((resolved (run demoEnv (ParseArgs demoHex .merge demoFlags) ()).trace)[i]?).map
          (fun x => x.2.2.2) = m.Utxos[i]? :=
  ⟨by decide, merge_preserves_supplied_order demoEnv demoHex demoFlags () (by decide)⟩

/-- C8: in every `merge` run on 64-bit positions the first call is `DeriveAddress` on
the private key flag; the `GetUTXO` calls, in order, are made under the address that
call returned, at the supplied positions themselves and with the watcher URL flag, one
call per supplied position; their answers are the UTXO list of the one merge
transaction handed to `MergeBasicTransaction`, whose source owner is the address form
of that same address. -/
theorem merge_resolves_under_derived_owner {U B σ : Type} (env : Env U B σ)
    (hex : String → Address) (f : Flags) (s : σ)
    (h : ∀ u ∈ f.mergeFromUtxos, u < 2 ^ 64) :
    ∃ m : MergeTransaction,
      (run env (ParseArgs hex .merge f) s).trace.head? =
        some (Event.DeriveAddress f.mergePrivateKey (env.DeriveAddress f.mergePrivateKey s).1) ∧
      (resolved (run env (ParseArgs hex .merge f) s).trace).map
          (fun x => (x.1, x.2.1, x.2.2.1)) =
        f.mergeFromUtxos.map
          (fun u => ((env.DeriveAddress f.mergePrivateKey s).1, u, f.mergeWatcherURL)) ∧
      (resolved (run env (ParseArgs hex .merge f) s).trace).map (fun x => x.1) =
        List.replicate f.mergeFromUtxos.length (env.DeriveAddress f.mergePrivateKey s).1 ∧
      (resolved (run env (ParseArgs hex .merge f) s).trace).map (fun x => x.2.2.2) = m.Utxos ∧
      (run env (ParseArgs hex .merge f) s).trace.filter Event.isSubmit =
        [Event.MergeBasicTransaction m f.mergeWatcherURL] ∧
      m.Fromowner = hex (env.DeriveAddress f.mergePrivateKey s).1 ∧
      m.Privatekey = f.mergePrivateKey := by
  obtain ⟨rs, hlen, htr, -⟩ := merge_run env hex f s
  have hres : resolved (run env (ParseArgs hex .merge f) s).trace =
      List.zipWith (fun (u : Nat) (r : SingleUTXO) =>
        ((env.DeriveAddress f.mergePrivateKey s).1, (fun u : Nat => uint (u : Int)) u,
          f.mergeWatcherURL, r)) f.mergeFromUtxos rs := by
    rw [htr, resolved_DeriveAddress, resolved_log,
      resolved_zipWith_append _ _ (fun u : Nat => uint (u : Int))]
    simp [resolved]
  have hpos := map_owner_pos_zipWith (env.DeriveAddress f.mergePrivateKey s).1
    f.mergeWatcherURL (fun u : Nat => uint (u : Int)) f.mergeFromUtxos rs hlen
  have hown := map_owner_zipWith (env.DeriveAddress f.mergePrivateKey s).1
    f.mergeWatcherURL (fun u : Nat => uint (u : Int)) f.mergeFromUtxos rs hlen
  have hans := map_res_zipWith (env.DeriveAddress f.mergePrivateKey s).1 f.mergeWatcherURL
    (fun u : Nat => uint (u : Int)) f.mergeFromUtxos rs hlen
  have hcongr : f.mergeFromUtxos.map (fun u : Nat =>
        ((env.DeriveAddress f.mergePrivateKey s).1, (fun u : Nat => uint (u : Int)) u,
          f.mergeWatcherURL)) =
      f.mergeFromUtxos.map
        (fun u => ((env.DeriveAddress f.mergePrivateKey s).1, u, f.mergeWatcherURL)) := by
    apply List.map_congr_left
    intro u hu
    simp only [uint_natCast u (h u hu)]
  refine ⟨⟨rs, hex (env.DeriveAddress f.mergePrivateKey s).1, f.mergePrivateKey⟩, ?_, ?_, ?_,
    ?_, ?_, rfl, rfl⟩
  · rw [htr]
    rfl
  · rw [hres, hpos, hcongr]
  · rw [hres, hown]
  · rw [hres, hans]
  · rw [htr]
    exact filter_submit_merge_shape _ _ _ _ (fun u : Nat => uint (u : Int)) _ _ _

/-- Witness of C8: the positions `1000, 2000, 1000`. -/
theorem merge_resolves_under_derived_owner_witness :
    (∀ u ∈ demoFlags.mergeFromUtxos, u < 2 ^ 64) ∧
    ∃ m : MergeTransaction,
      (run demoEnv (ParseArgs demoHex .merge demoFlags) ()).trace.head? =
        some (Event.DeriveAddress demoFlags.mergePrivateKey
          (demoEnv.DeriveAddress demoFlags.mergePrivateKey ()).1) ∧
      (resolved (run demoEnv (ParseArgs demoHex .merge demoFlags) ()).trace).map
          (fun x => (x.1, x.2.1, x.2.2.1)) =
        demoFlags.mergeFromUtxos.map
          (fun u => ((demoEnv.DeriveAddress demoFlags.mergePrivateKey ()).1, u,
            demoFlags.mergeWatcherURL)) ∧
      (resolved (run demoEnv (ParseArgs demoHex .merge demoFlags) ()).trace).map (fun x => x.1) =
        List.replicate demoFlags.mergeFromUtxos.length
          (demoEnv.DeriveAddress demoFlags.mergePrivateKey ()).1 ∧
      (resolved (run demoEnv (ParseArgs demoHex .merge demoFlags) ()).trace).map
        (fun x => x.2.2.2) = m.Utxos ∧
      (run demoEnv (ParseArgs demoHex .merge demoFlags) ()).trace.filter Event.isSubmit =
        [Event.MergeBasicTransaction m demoFlags.mergeWatcherURL] ∧
      m.Fromowner = demoHex (demoEnv.DeriveAddress demoFlags.mergePrivateKey ()).1 ∧
      m.Privatekey = demoFlags.mergePrivateKey :=
  ⟨by decide, merge_resolves_under_derived_owner demoEnv demoHex demoFlags () (by decide)⟩

/-- C4, as the code behaves: the `merge` case tests the number of positions nowhere.  For
every non-empty list of 64-bit positions, of whatever length (one position and more
than four included), the run is `DeriveAddress`, `log.Info`, one `GetUTXO` call at each
supplied position in the supplied order, and finally `MergeBasicTransaction` on the
transaction that holds the answers; so at least one UTXO is resolved at the watcher and
a merge transaction is handed over, and `ParseArgs` returns. -/
theorem merge_applies_no_count_bound {U B σ : Type} (env : Env U B σ)
    (hex : String → Address) (f : Flags) (s : σ)
    (hne : f.mergeFromUtxos ≠ []) (h : ∀ u ∈ f.mergeFromUtxos, u < 2 ^ 64) :
    ∃ (k : String) (rs : List SingleUTXO),
      k = (env.DeriveAddress f.mergePrivateKey s).1 ∧
      rs.length = f.mergeFromUtxos.length ∧
      (run env (ParseArgs hex .merge f) s).trace =
        Event.DeriveAddress f.mergePrivateKey k ::
        Event.log .info [.str k] ::
        (List.zipWith (fun (u : Nat) (r : SingleUTXO) =>
            Event.GetUTXO k u f.mergeWatcherURL r) f.mergeFromUtxos rs ++
        [Event.MergeBasicTransaction ⟨rs, hex k, f.mergePrivateKey⟩ f.mergeWatcherURL]) ∧
      (run env (ParseArgs hex .merge f) s).trace.filter Event.isResolve ≠ [] ∧
      ((run env (ParseArgs hex .merge f) s).trace.filter Event.isResolve).length =
        f.mergeFromUtxos.length ∧
      (run env (ParseArgs hex .merge f) s).trace.filter Event.isSubmit =
        [Event.MergeBasicTransaction ⟨rs, hex k, f.mergePrivateKey⟩ f.mergeWatcherURL] ∧
      (run env (ParseArgs hex .merge f) s).status = .returned := by
  obtain ⟨rs, hlen, htr, hst⟩ := merge_run_of_range env hex f s h
  have hcount : ((run env (ParseArgs hex .merge f) s).trace.filter Event.isResolve).length =
      f.mergeFromUtxos.length := by
    rw [htr, filter_resolve_merge_shape _ _ _ _ (fun u : Nat => u),
      List.length_zipWith, hlen, Nat.min_self]
  refine ⟨_, rs, rfl, hlen, htr, ?_, hcount, ?_, hst⟩
  · intro hnil
    rw [hnil] at hcount
    exact hne (List.length_eq_zero.1 hcount.symm)
  · rw [htr]
    exact filter_submit_merge_shape _ _ _ _ (fun u : Nat => u) _ _ _

/-- Witness of C4: five positions. -/
theorem merge_applies_no_count_bound_witness :
    mergeFiveFlags.mergeFromUtxos ≠ [] ∧ (∀ u ∈ mergeFiveFlags.mergeFromUtxos, u < 2 ^ 64) ∧
    ∃ (k : String) (rs : List SingleUTXO),
      k = (demoEnv.DeriveAddress mergeFiveFlags.mergePrivateKey ()).1 ∧
      rs.length = mergeFiveFlags.mergeFromUtxos.length ∧
      (run demoEnv (ParseArgs demoHex .merge mergeFiveFlags) ()).trace =
        Event.DeriveAddress mergeFiveFlags.mergePrivateKey k ::
        Event.log .info [.str k] ::
        (List.zipWith (fun (u : Nat) (r : SingleUTXO) =>
            Event.GetUTXO k u mergeFiveFlags.mergeWatcherURL r)
          mergeFiveFlags.mergeFromUtxos rs ++
        [Event.MergeBasicTransaction ⟨rs, demoHex k, mergeFiveFlags.mergePrivateKey⟩
          mergeFiveFlags.mergeWatcherURL]) ∧
      (run demoEnv (ParseArgs demoHex .merge mergeFiveFlags) ()).trace.filter
        Event.isResolve ≠ [] ∧
      ((run demoEnv (ParseArgs demoHex .merge mergeFiveFlags) ()).trace.filter
        Event.isResolve).length = mergeFiveFlags.mergeFromUtxos.length ∧
      (run demoEnv (ParseArgs demoHex .merge mergeFiveFlags) ()).trace.filter Event.isSubmit =
        [Event.MergeBasicTransaction ⟨rs, demoHex k, mergeFiveFlags.mergePrivateKey⟩
          mergeFiveFlags.mergeWatcherURL] ∧
      (run demoEnv (ParseArgs demoHex .merge mergeFiveFlags) ()).status = .returned :=
  ⟨by decide, by decide,
    merge_applies_no_count_bound demoEnv demoHex mergeFiveFlags () (by decide) (by decide)⟩

/-- C4 fails as stated: with five positions, and with one position, the count is
outside `[2,4]`, yet every position is resolved at the watcher and a merge transaction
is handed to `MergeBasicTransaction`. -/
theorem merge_count_unchecked_counterexample :
    (4 < mergeFiveFlags.mergeFromUtxos.length ∧
      ((run demoEnv (ParseArgs demoHex .merge mergeFiveFlags) ()).trace.filter
        Event.isResolve).length = 5 ∧
      ((run demoEnv (ParseArgs demoHex .merge mergeFiveFlags) ()).trace.filter
        Event.isSubmit).length = 1) ∧
    (mergeOneFlags.mergeFromUtxos.length < 2 ∧
      (run demoEnv (ParseArgs demoHex .merge mergeOneFlags) ()).trace.filter Event.isResolve =
        [Event.GetUTXO "0xowner" 1000 "http://watcher" ⟨1000, 0, 0, "0x0", 10⟩] ∧
      (run demoEnv (ParseArgs demoHex .merge mergeOneFlags) ()).trace.filter Event.isSubmit =
        [Event.MergeBasicTransaction
          ⟨[⟨1000, 0, 0, "0x0", 10⟩], demoHex "0xowner", "key"⟩ "http://watcher"]) := by
  decide

/-- C5, as the code behaves: the `split` case tests the `outputs` flag nowhere.  For
every value `n` of the flag the run is exactly the three calls `DeriveAddress`,
`GetUTXO` under the derived address at the `sfromutxo` position, and
`SendSplitTransaction` on the transaction built from the resolved UTXO whose `Outputs`
field is `int(n)`, which is `n` itself for `n < 2 ^ 63`; so the UTXO is resolved at the
watcher and the split transaction is handed over whatever the count, and `ParseArgs`
returns. -/
theorem split_applies_no_count_bound {U B σ : Type} (env : Env U B σ)
    (hex : String → Address) (f : Flags) (s : σ) :
    ∃ (k : String) (p : SingleUTXO),
      k = (env.DeriveAddress f.sprivatekey s).1 ∧
      p = (env.GetUTXO k f.sfromutxo f.swatcherSubmitURL
        (env.DeriveAddress f.sprivatekey s).2).1 ∧
      (run env (ParseArgs hex .split f) s).trace =
        [Event.DeriveAddress f.sprivatekey k,
         Event.GetUTXO k f.sfromutxo f.swatcherSubmitURL p,
         Event.SendSplitTransaction
          { Blknum := uint p.Blknum,
            Txindex := uint p.Txindex,
            Oindex := uint p.Oindex,
            Cur12 := hex p.Currency,
            Toowner := hex f.stoowner,
            Fromowner := hex k,
            Privatekey := f.sprivatekey,
            Toamount := f.stoamount,
            Fromamount := uint p.Amount,
            Outputs := int f.outputs }
          f.swatcherSubmitURL] ∧
      (f.outputs < 2 ^ 63 → int f.outputs = (f.outputs : Int)) ∧
      ((run env (ParseArgs hex .split f) s).trace.filter Event.isResolve).length = 1 ∧
      ((run env (ParseArgs hex .split f) s).trace.filter Event.isSubmit).length = 1 ∧
      (run env (ParseArgs hex .split f) s).status = .returned := by
  refine ⟨_, _, rfl, rfl, ?_, int_small _, ?_, ?_, ?_⟩
  · simp only [ParseArgs, run, cons_trace]
  · simp [ParseArgs, run, cons_trace, Event.isResolve]
  · simp [ParseArgs, run, cons_trace, Event.isSubmit]
  · simp only [ParseArgs, run, cons_status]

/-- C5 fails as stated: with `outputs` 5, and with `outputs` 1, the count is outside
`[2,4]`, yet the UTXO is resolved at the watcher and a split transaction carrying that
count is handed to `SendSplitTransaction`. -/
theorem split_count_unchecked_counterexample :
    (4 < splitFiveFlags.outputs ∧
      (run demoEnv (ParseArgs demoHex .split splitFiveFlags) ()).trace =
        [Event.DeriveAddress "key" "0xowner",
         Event.GetUTXO "0xowner" 1000 "http://watcher" ⟨1000, 0, 0, "0x0", 10⟩,
         Event.SendSplitTransaction
          ⟨1000, 0, 0, demoHex "0x0", demoHex "0xdest", demoHex "0xowner", "key", 6, 10, 5⟩
          "http://watcher"]) ∧
    (splitOneFlags.outputs < 2 ∧
      (run demoEnv (ParseArgs demoHex .split splitOneFlags) ()).trace =
        [Event.DeriveAddress "key" "0xowner",
         Event.GetUTXO "0xowner" 1000 "http://watcher" ⟨1000, 0, 0, "0x0", 10⟩,
         Event.SendSplitTransaction
          ⟨1000, 0, 0, demoHex "0x0", demoHex "0xdest", demoHex "0xowner", "key", 6, 10, 1⟩
          "http://watcher"]) := by
  decide

/-- C10: for every 64-bit value `n` of the `outputs` flag, the `split` run hands exactly
one transaction to `SendSplitTransaction`, and its `Outputs` field is `int(n)`: it is
`n` when `n < 2 ^ 63` and `n - 2 ^ 64` otherwise, so it is negative exactly when
`2 ^ 63 ≤ n`; no value of `n` keeps the call from being made. -/
theorem split_outputs_is_signed_reading {U B σ : Type} (env : Env U B σ)
    (hex : String → Address) (f : Flags) (s : σ) (h : f.outputs < 2 ^ 64) :
    ∃ c : PlasmaTransaction,
      (run env (ParseArgs hex .split f) s).trace.filter Event.isSubmit =
        [Event.SendSplitTransaction c f.swatcherSubmitURL] ∧
      c.Outputs = int f.outputs ∧
      c.Outputs = (if f.outputs < 2 ^ 63 then (f.outputs : Int) else (f.outputs : Int) - 2 ^ 64) ∧
      (c.Outputs < 0 ↔ 2 ^ 63 ≤ f.outputs) := by
  have hval : int f.outputs =
      (if f.outputs < 2 ^ 63 then (f.outputs : Int) else (f.outputs : Int) - 2 ^ 64) := by
    by_cases hlt : f.outputs < 2 ^ 63
    · rw [if_pos hlt, int_small _ hlt]
    · rw [if_neg hlt, int_large _ (by omega) h]
  refine ⟨
    { Blknum := uint (env.GetUTXO (env.DeriveAddress f.sprivatekey s).1 f.sfromutxo
        f.swatcherSubmitURL (env.DeriveAddress f.sprivatekey s).2).1.Blknum,
      Txindex := uint (env.GetUTXO (env.DeriveAddress f.sprivatekey s).1 f.sfromutxo
        f.swatcherSubmitURL (env.DeriveAddress f.sprivatekey s).2).1.Txindex,
      Oindex := uint (env.GetUTXO (env.DeriveAddress f.sprivatekey s).1 f.sfromutxo
        f.swatcherSubmitURL (env.DeriveAddress f.sprivatekey s).2).1.Oindex,
      Cur12 := hex (env.GetUTXO (env.DeriveAddress f.sprivatekey s).1 f.sfromutxo
        f.swatcherSubmitURL (env.DeriveAddress f.sprivatekey s).2).1.Currency,
      Toowner := hex f.stoowner,
      Fromowner := hex (env.DeriveAddress f.sprivatekey s).1,
      Privatekey := f.sprivatekey,
      Toamount := f.stoamount,
      Fromamount := uint (env.GetUTXO (env.DeriveAddress f.sprivatekey s).1 f.sfromutxo
        f.swatcherSubmitURL (env.DeriveAddress f.sprivatekey s).2).1.Amount,
      Outputs := int f.outputs }, ?_, rfl, hval, ?_⟩
  · simp [ParseArgs, run, cons_trace, Event.isSubmit]
  · show int f.outputs < 0 ↔ 2 ^ 63 ≤ f.outputs
    rw [hval]
    by_cases hlt : f.outputs < 2 ^ 63
    · rw [if_pos hlt]
      omega
    · rw [if_neg hlt]
      omega

/-- Witness of C10: the largest `uint64`, which `SendSplitTransaction` receives as `-1`. -/
theorem split_outputs_is_signed_reading_witness :
    splitMaxFlags.outputs < 2 ^ 64 ∧
    ∃ c : PlasmaTransaction,
      (run demoEnv (ParseArgs demoHex .split splitMaxFlags) ()).trace.filter Event.isSubmit =
        [Event.SendSplitTransaction c splitMaxFlags.swatcherSubmitURL] ∧
      c.Outputs = int splitMaxFlags.outputs ∧
      c.Outputs = (if splitMaxFlags.outputs < 2 ^ 63 then (splitMaxFlags.outputs : Int)
        else (splitMaxFlags.outputs : Int) - 2 ^ 64) ∧
      (c.Outputs < 0 ↔ 2 ^ 63 ≤ splitMaxFlags.outputs) :=
  ⟨by decide, split_outputs_is_signed_reading demoEnv demoHex splitMaxFlags () (by decide)⟩

end parser
